import Mathlib

/-!
Shallow embedding of the compatibility-checking and order-selection engine
of the pineko repository (files `src/pineko/check.py` and
`src/pineko/evolve.py`), together with theorems settling the spec claims.

Floating-point values are modelled as exact rationals; numpy helpers
(`np.isclose`, `np.searchsorted`, `np.unique`) are modelled from their
documented semantics on the (sorted) inputs the source feeds them.
-/

instance exceptDecEq {ε α : Type} [DecidableEq ε] [DecidableEq α] :
    DecidableEq (Except ε α) := fun x y =>
  match x, y with
  | .ok a, .ok b =>
      if h : a = b then .isTrue (congrArg _ h)
      else .isFalse (fun hc => h (Except.ok.inj hc))
  | .error a, .error b =>
      if h : a = b then .isTrue (congrArg _ h)
      else .isFalse (fun hc => h (Except.error.inj hc))
  | .ok _, .error _ => .isFalse (fun hc => Except.noConfusion hc)
  | .error _, .ok _ => .isFalse (fun hc => Except.noConfusion hc)

/-- Executable absolute value on the rationals (the lattice-valued `|q|` of
Mathlib does not reduce in the kernel). -/
def ratAbs (q : ℚ) : ℚ := if q < 0 then -q else q

/-- Default relative tolerance of `in1d` (`rtol=1e-05` in `check.py`). -/
def defaultRtol : ℚ := 1 / 100000

/-- Default absolute tolerance of `in1d` (`atol=1e-08` in `check.py`). -/
def defaultAtol : ℚ := 1 / 100000000

/-- Modelled from numpy's documented semantics (numpy is external to the
repository): `np.isclose(x, y, rtol, atol)` holds iff
`|x - y| <= atol + rtol * |y|`. -/
def isClose (x y rtol atol : ℚ) : Bool :=
  decide (ratAbs (x - y) ≤ atol + rtol * ratAbs y)

/-- Modelled from numpy's documented semantics (numpy is external):
`np.searchsorted(a, v, side="left")` on a sorted array `a` returns the
leftmost insertion index of `v`, i.e. the number of elements of `a` that
are strictly smaller than `v`. -/
def searchsortedLeft (a : List ℚ) (v : ℚ) : ℕ :=
  a.countP (fun x => decide (x < v))

/-- The Python slice `a[1:-1]`: drop the first and the last element. -/
def pySlice1m1 (a : List ℚ) : List ℚ :=
  (a.drop 1).dropLast

/-- Embedding of `in1d(a, b, rtol, atol)` from `check.py`: if `a` has exactly
one element, scan `b` and return the one-element list `[True]` on the first
match with `a[0]`, else `[False]`; otherwise binary-search each `b` element
into `a[1:-1]` and test the two neighbouring candidates `a[ss]`, `a[ss+1]`. -/
def in1d (a b : List ℚ) (rtol atol : ℚ) : List Bool :=
  if a.length = 1 then
    if b.any (fun be => isClose be (a.getD 0 0) rtol atol) then [true] else [false]
  else
    b.map (fun v =>
      isClose (a.getD (searchsortedLeft (pySlice1m1 a) v) 0) v rtol atol
        || isClose (a.getD (searchsortedLeft (pySlice1m1 a) v + 1) 0) v rtol atol)

/-- Modelled from numpy's documented semantics (numpy is external):
`np.unique` returns the sorted list of distinct values. -/
def npUnique (l : List ℚ) : List ℚ :=
  (l.insertionSort (· ≤ ·)).dedup

/-- Embedding of `check_grid_and_eko_compatible` from `check.py`, over the
kinematic data the source extracts before the two membership tests: the
operator's scale grid `operators.mu2grid`, the operator's target
momentum-fraction grid `operators.rotations.targetgrid`, and the coefficient
grid's evolve-info projections `x_grid` and `muf2_grid` (the extraction via
`pineappl` is external to the repository).  Mirrors the source's two
`np.all(in1d(np.unique(...), ...))` tests and its two `ValueError`s. -/
def check_grid_and_eko_compatible (opMu2grid opTargetgrid x_grid muf2_grid : List ℚ)
    (xif : ℚ) : Except String Unit :=
  if !((in1d (npUnique opMu2grid) (muf2_grid.map (fun q => xif * xif * q))
        defaultRtol defaultAtol).all id) then
    .error "Q2 grid in pineappl grid and eko operator are NOT compatible!"
  else if !((in1d (npUnique opTargetgrid) x_grid defaultRtol defaultAtol).all id) then
    .error "x grid in pineappl grid and eko operator are NOT compatible!"
  else
    .ok ()

/-- The inputs read by the compatibility checker, gathered in one record. -/
structure CheckInputs where
  opMu2grid : List ℚ
  opTargetgrid : List ℚ
  x_grid : List ℚ
  muf2_grid : List ℚ
  xif : ℚ
deriving DecidableEq

/-- State-passing form of one checker invocation: the source function only
reads its arguments (it never assigns to them), so a run returns the verdict
together with the unchanged inputs. -/
def check_grid_run (s : CheckInputs) : Except String Unit × CheckInputs :=
  (check_grid_and_eko_compatible s.opMu2grid s.opTargetgrid s.x_grid s.muf2_grid s.xif, s)

/-- A perturbative order of a pineappl grid, as the 4-tuple returned by
`order.as_tuple()`: `(alphas, alpha, logxir, logxif)`. -/
structure GridOrder where
  alphas : ℕ
  alpha : ℕ
  logxir : ℕ
  logxif : ℕ
deriving DecidableEq, Repr

/-- Python tuple indexing on the 4-tuple, including negative indices
(`t[-2]` is the third entry, `t[-1]` the fourth). -/
def GridOrder.tupleGet (o : GridOrder) (i : ℤ) : ℕ :=
  if i % 4 = 0 then o.alphas
  else if i % 4 = 1 then o.alpha
  else if i % 4 = 2 then o.logxir
  else o.logxif

/-- Embedding of the `ScaleValue` dataclass of `check.py`. -/
structure ScaleValue where
  description : String
  index : ℤ
deriving DecidableEq

/-- Embedding of the `Scale` enum of `check.py`. -/
inductive Scale
  | REN
  | FACT
deriving DecidableEq, Repr

/-- The payload of each `Scale` member, as in `check.py`. -/
def Scale.value : Scale → ScaleValue
  | .REN => ⟨"renormalization scale variations", -2⟩
  | .FACT => ⟨"factorization scale variations", -1⟩

/-- Embedding of the `AvailableAtMax` enum of `check.py`. -/
inductive AvailableAtMax
  | BOTH
  | CENTRAL
  | SCVAR
deriving DecidableEq, Repr

/-- Modelled from the spec: `pineappl.grid.Order.create_mask` is external to
`src/`; spec section 4.2 documents it as including order `i` iff
`as_power <= max_as` and `al_power <= max_al`, preserving order and length. -/
def create_order_mask (orders : List GridOrder) (max_as max_al : ℕ) : List Bool :=
  orders.map (fun o => decide (o.alphas ≤ max_as ∧ o.alpha ≤ max_al))

/-- Embedding of `get_order_list` from `check.py`: the grid's order tuples
restricted to the entries selected by the order mask. -/
def get_order_list (grid : List GridOrder) (max_as max_al : ℕ) : List GridOrder :=
  grid.filter (fun o => decide (o.alphas ≤ max_as ∧ o.alpha ≤ max_al))

/-- Embedding of `pure_qcd_orders` from `check.py`: keep the orders whose
`ord[1]` equals the minimal `ord[1]`; Python's `min` raises `ValueError` on
an empty sequence, modelled as the error case. -/
def pure_qcd_orders (order_list : List GridOrder) : Except String (List GridOrder) :=
  match (order_list.map (fun o => o.tupleGet 1)).min? with
  | none => .error "ValueError: min() arg is an empty sequence"
  | some min_al => .ok (order_list.filter (fun o => decide (o.tupleGet 1 = min_al)))

/-- Embedding of `contains_sv` from `check.py` (lines 159-203): compute the
pure-QCD tower, its extremal `alphas` powers, the maximal central and
scale-varied powers for the requested scale kind, then decide the
availability; Python's `max`/`min` on empty sequences raise, modelled as
error cases. -/
def contains_sv (order_list : List GridOrder) (sv_type : Scale) :
    Except String (AvailableAtMax × ℕ) :=
  match pure_qcd_orders order_list with
  | .error e => .error e
  | .ok as_orders =>
    match (as_orders.map (fun o => o.tupleGet 0)).max? with
    | none => .error "ValueError: max() arg is an empty sequence"
    | some max_as_effective =>
      match (as_orders.map (fun o => o.tupleGet 0)).min? with
      | none => .error "ValueError: min() arg is an empty sequence"
      | some min_as =>
        match ((as_orders.filter (fun o => decide (o.tupleGet sv_type.value.index = 0))).map
            (fun o => o.tupleGet 0)).max? with
        | none => .error "ValueError: max() arg is an empty sequence"
        | some max_as_effective_cen =>
          let max_as_effective_sv :=
            ((as_orders.filter (fun o => decide (o.tupleGet sv_type.value.index ≠ 0))).map
              (fun o => o.tupleGet 0)).foldr max 0
          let checkres :=
            if max_as_effective_cen = max_as_effective then
              if max_as_effective_sv = max_as_effective then AvailableAtMax.BOTH
              else if max_as_effective = min_as then AvailableAtMax.BOTH
              else if max_as_effective = 1 ∧ sv_type = Scale.REN ∧ min_as = 0 then
                AvailableAtMax.BOTH
              else AvailableAtMax.CENTRAL
            else AvailableAtMax.SCVAR
          .ok (checkres, max_as_effective - min_as + 1)

/-- The pure-QCD tower as a total function (agrees with the `.ok` value of
`pure_qcd_orders` whenever the order list is non-empty). -/
def pureQcdFiltered (order_list : List GridOrder) : List GridOrder :=
  order_list.filter (fun o =>
    decide (some (o.tupleGet 1) = (order_list.map (fun o2 => o2.tupleGet 1)).min?))

/-- `max_as_effective` of `contains_sv`: maximal `alphas` power of the
pure-QCD tower. -/
def svMaxAsAll (order_list : List GridOrder) : Option ℕ :=
  ((pureQcdFiltered order_list).map (fun o => o.tupleGet 0)).max?

/-- `min_as` of `contains_sv`: minimal `alphas` power of the pure-QCD tower. -/
def svMinAs (order_list : List GridOrder) : Option ℕ :=
  ((pureQcdFiltered order_list).map (fun o => o.tupleGet 0)).min?

/-- `max_as_effective_cen` of `contains_sv`: maximal `alphas` power among the
tower orders whose variation marker for the given kind is zero. -/
def svMaxAsCen (order_list : List GridOrder) (sv_type : Scale) : Option ℕ :=
  (((pureQcdFiltered order_list).filter
      (fun o => decide (o.tupleGet sv_type.value.index = 0))).map
    (fun o => o.tupleGet 0)).max?

/-- `max_as_effective_sv` of `contains_sv`: maximal `alphas` power among the
tower orders whose variation marker is non-zero, defaulting to `0`. -/
def svMaxAsSv (order_list : List GridOrder) (sv_type : Scale) : ℕ :=
  (((pureQcdFiltered order_list).filter
      (fun o => decide (o.tupleGet sv_type.value.index ≠ 0))).map
    (fun o => o.tupleGet 0)).foldr max 0

/-- Embedding of `sv_scheme` from `evolve.py`; the recognized scheme values
(`eko.io.types.ScaleVariationsMethod`, external to the repository) are
passed as the list `modsv_list`. -/
def sv_scheme (modsv_list : List String) (xif : ℚ) (modsv : String) :
    Except String (Option String) :=
  if isClose xif 1 defaultRtol defaultAtol then
    if modsv ∈ modsv_list then .error "ModSv is not None but xif is 1.0"
    else .ok none
  else
    if modsv ∉ modsv_list then .ok none
    else .ok (some modsv)

/-- Embedding of the `alphas_values` computation of `evolve_grid`
(`evolve.py` lines 198-205): one value per operator scale point, namely
`4 * pi * sc.a_s(xir * xir * muf2 / xif / xif)`; the coupling evaluator
`sc.a_s` and the constant `np.pi` are external and kept abstract. -/
def alphas_values (pi : ℚ) (a_s : ℚ → ℚ) (xir xif : ℚ) (muf2_grid : List ℚ) : List ℚ :=
  muf2_grid.map (fun muf2 => 4 * pi * a_s (xir * xir * muf2 / xif / xif))

/-- The parameter list of `check_grid_and_eko_compatible` in `check.py`
(line 77); none of the five has a default value. -/
def check_grid_and_eko_compatible_params : List String :=
  ["pineappl_grid", "operators", "xif", "max_as", "max_al"]

/-- The argument list of the call
`check.check_grid_and_eko_compatible(grid, operators, xif)` inside
`evolve_grid` (`evolve.py` line 171). -/
def evolve_grid_compat_call_args : List String :=
  ["grid", "operators", "xif"]

/-- Python call semantics for a function all of whose parameters lack
defaults: binding the positional arguments succeeds iff their number equals
the number of parameters, otherwise a `TypeError` is raised. -/
def python_bind_positional (params args : List String) : Except String Unit :=
  if args.length = params.length then .ok ()
  else .error "TypeError"

/-- The claim's reading of the Q2 compatibility condition: every distinct
value of the operator's scale grid tolerantly matches some element of
`xif^2` times the coefficient grid's factorization-scale values. -/
def q2_compatible_claimed (opMu2grid muf2_grid : List ℚ) (xif : ℚ) : Prop :=
  ∀ x ∈ npUnique opMu2grid,
    ∃ y ∈ muf2_grid.map (fun q => xif * xif * q), isClose x y defaultRtol defaultAtol = true

/-- The claim's reading of the x compatibility condition: every distinct
value of the operator's target momentum-fraction grid tolerantly matches
some element of the coefficient grid's x-values. -/
def x_compatible_claimed (opTargetgrid x_grid : List ℚ) : Prop :=
  ∀ x ∈ npUnique opTargetgrid, ∃ y ∈ x_grid, isClose x y defaultRtol defaultAtol = true

/-- The Q2 condition the source actually enforces: every element of `xif^2`
times the coefficient grid's factorization-scale values tolerantly matches
some distinct value of the operator's scale grid. -/
def q2_required_in_operator (opMu2grid muf2_grid : List ℚ) (xif : ℚ) : Prop :=
  ∀ y ∈ muf2_grid.map (fun q => xif * xif * q),
    ∃ x ∈ npUnique opMu2grid, isClose x y defaultRtol defaultAtol = true

/-- The x condition the source actually enforces: every coefficient-grid
x-value tolerantly matches some distinct value of the operator's target
momentum-fraction grid. -/
def x_required_in_operator (opTargetgrid x_grid : List ℚ) : Prop :=
  ∀ y ∈ x_grid, ∃ x ∈ npUnique opTargetgrid, isClose x y defaultRtol defaultAtol = true

/-! Helper lemmas on the tolerant membership test. -/

theorem ratAbs_eq_abs (q : ℚ) : ratAbs q = |q| := by
  unfold ratAbs
  rcases lt_or_le q 0 with h | h
  · rw [if_pos h, abs_of_neg h]
  · rw [if_neg (not_lt.mpr h), abs_of_nonneg h]

theorem isClose_iff (x y rtol atol : ℚ) :
    isClose x y rtol atol = true ↔ |x - y| ≤ atol + rtol * |y| := by
  unfold isClose
  rw [decide_eq_true_eq, ratAbs_eq_abs, ratAbs_eq_abs]

theorem length_pySlice1m1 (a : List ℚ) : (pySlice1m1 a).length = a.length - 2 := by
  unfold pySlice1m1
  rw [List.length_dropLast, List.length_drop]
  omega

theorem getElem_pySlice1m1 (a : List ℚ) (i j : ℕ) (hi : i < (pySlice1m1 a).length)
    (hj : j < a.length) (hij : j = i + 1) : (pySlice1m1 a)[i] = a[j] := by
  subst hij
  unfold pySlice1m1 at hi ⊢
  rw [List.getElem_dropLast, List.getElem_drop]
  simp [Nat.add_comm]

theorem searchsortedLeft_le (a : List ℚ) (v : ℚ) :
    searchsortedLeft (pySlice1m1 a) v ≤ a.length - 2 := by
  unfold searchsortedLeft
  calc (pySlice1m1 a).countP (fun x => decide (x < v)) ≤ (pySlice1m1 a).length :=
        List.countP_le_length _
    _ = a.length - 2 := length_pySlice1m1 a

/-- In a nondecreasing list, an element is smaller than `v` exactly when its
index is below the count of elements smaller than `v`. -/
theorem sorted_getElem_lt_iff (l : List ℚ) (hs : l.Sorted (· ≤ ·)) (v : ℚ) :
    ∀ (i : ℕ) (hi : i < l.length),
      (l[i] < v ↔ i < l.countP (fun x => decide (x < v))) := by
  induction l with
  | nil => intro i hi; simp at hi
  | cons x xs ih =>
    rw [List.sorted_cons] at hs
    intro i hi
    rw [List.countP_cons]
    rcases i with _ | j
    · rw [List.getElem_cons_zero]
      by_cases hx : x < v
      · simp [hx]
      · have hzero : xs.countP (fun z => decide (z < v)) = 0 := by
          rw [List.countP_eq_zero]
          intro b hb
          have hvb : v ≤ b := le_trans (not_lt.mp hx) (hs.1 b hb)
          simp [not_lt.mpr hvb]
        simp [hx, hzero]
    · rw [List.getElem_cons_succ]
      have hj : j < xs.length := by simpa using Nat.lt_of_succ_lt_succ hi
      have hxs := ih hs.2 j hj
      by_cases hx : x < v
      · rw [if_pos (by simpa using hx)]
        exact hxs.trans (by omega)
      · have hzero : xs.countP (fun z => decide (z < v)) = 0 := by
          rw [List.countP_eq_zero]
          intro b hb
          have hvb : v ≤ b := le_trans (not_lt.mp hx) (hs.1 b hb)
          simp [not_lt.mpr hvb]
        have hge : ¬ xs[j] < v := by
          have hvb : v ≤ xs[j] := le_trans (not_lt.mp hx) (hs.1 _ (List.getElem_mem hj))
          exact not_lt.mpr hvb
        rw [if_neg (by simpa using hx)]
        simp [hge, hzero]

theorem sorted_pySlice1m1 (a : List ℚ) (hs : a.Sorted (· ≤ ·)) :
    (pySlice1m1 a).Sorted (· ≤ ·) := by
  unfold pySlice1m1
  exact List.Pairwise.sublist ((List.dropLast_sublist _).trans (List.drop_sublist 1 a)) hs

/-- The two candidates tested by the general branch of `in1d` find a tolerant
match exactly when the full scan over the sorted needle list would. -/
theorem in1d_two_candidates (a : List ℚ) (hs : a.Sorted (· ≤ ·)) (h2 : 2 ≤ a.length)
    (v rtol atol : ℚ) :
    (isClose (a.getD (searchsortedLeft (pySlice1m1 a) v) 0) v rtol atol
      || isClose (a.getD (searchsortedLeft (pySlice1m1 a) v + 1) 0) v rtol atol) = true
    ↔ ∃ x ∈ a, isClose x v rtol atol = true := by
  have hss : searchsortedLeft (pySlice1m1 a) v ≤ a.length - 2 := searchsortedLeft_le a v
  set ss := searchsortedLeft (pySlice1m1 a) v with hssdef
  have h1 : ss < a.length := by omega
  have h1s : ss + 1 < a.length := by omega
  rw [List.getD_eq_getElem a 0 h1, List.getD_eq_getElem a 0 h1s, Bool.or_eq_true]
  have hmono : ∀ (i j : ℕ) (hi : i < a.length) (hj : j < a.length), i ≤ j → a[i] ≤ a[j] := by
    intro i j hi hj hij
    rcases Nat.eq_or_lt_of_le hij with h | h
    · subst h; rfl
    · exact (List.pairwise_iff_getElem.mp hs) i j hi hj h
  have hchar : ∀ (j : ℕ) (hj1 : 1 ≤ j) (hj : j < a.length - 1),
      (a[j] < v ↔ j - 1 < ss) := by
    intro j hj1 hj
    have hja : j < a.length := by omega
    have hip : j - 1 < (pySlice1m1 a).length := by rw [length_pySlice1m1]; omega
    have hiff := sorted_getElem_lt_iff (pySlice1m1 a) (sorted_pySlice1m1 a hs) v (j - 1) hip
    rw [getElem_pySlice1m1 a (j - 1) j hip hja (by omega)] at hiff
    exact hiff
  constructor
  · rintro (h | h)
    · exact ⟨a[ss], List.getElem_mem h1, h⟩
    · exact ⟨a[ss + 1], List.getElem_mem h1s, h⟩
  · rintro ⟨x, hx, hclose⟩
    obtain ⟨k, hk, hkx⟩ := List.mem_iff_getElem.mp hx
    rw [isClose_iff] at hclose ⊢
    rw [isClose_iff (a[ss + 1])]
    subst hkx
    have ht0 : 0 ≤ atol + rtol * |v| := le_trans (abs_nonneg _) hclose
    have habs := abs_le.mp hclose
    rcases lt_trichotomy k ss with hlt | heq | hgt
    · -- the matching element lies left of both candidates: a[ss] is closer
      left
      have hss1 : 1 ≤ ss := by omega
      have hssv : a[ss] < v := (hchar ss hss1 (by omega)).mpr (by omega)
      have hka : a[k] ≤ a[ss] := hmono k ss hk h1 (by omega)
      rw [abs_le]
      constructor
      · linarith [habs.1]
      · linarith
    · subst heq; left; exact hclose
    · rcases Nat.eq_or_lt_of_le hgt with heq1 | hgt1
      · have hk1 : k = ss + 1 := by omega
        subst hk1
        right
        exact hclose
      · -- the matching element lies right of both candidates: a[ss+1] is closer
        right
        have hsv : v ≤ a[ss + 1] := by
          by_contra hcon
          have := (hchar (ss + 1) (by omega) (by omega)).mp (not_le.mp hcon)
          omega
        have hka : a[ss + 1] ≤ a[k] := hmono (ss + 1) k h1s hk (by omega)
        rw [abs_le]
        constructor
        · linarith
        · linarith [habs.2]

theorem in1d_eq_map (a b : List ℚ) (rtol atol : ℚ) (hlen : a.length ≠ 1) :
    in1d a b rtol atol = b.map (fun v =>
      isClose (a.getD (searchsortedLeft (pySlice1m1 a) v) 0) v rtol atol
        || isClose (a.getD (searchsortedLeft (pySlice1m1 a) v + 1) 0) v rtol atol) := by
  unfold in1d
  rw [if_neg hlen]

theorem in1d_length_general (a b : List ℚ) (rtol atol : ℚ) (hlen : a.length ≠ 1) :
    (in1d a b rtol atol).length = b.length := by
  rw [in1d_eq_map a b rtol atol hlen, List.length_map]

theorem in1d_getD_iff (a b : List ℚ) (rtol atol : ℚ) (hs : a.Sorted (· ≤ ·))
    (h2 : 2 ≤ a.length) (i : ℕ) (hi : i < b.length) :
    ((in1d a b rtol atol).getD i false = true ↔
      ∃ x ∈ a, isClose x (b.getD i 0) rtol atol = true) := by
  rw [in1d_eq_map a b rtol atol (by omega)]
  rw [List.getD_eq_getElem _ false (by rw [List.length_map]; exact hi),
    List.getD_eq_getElem b 0 hi, List.getElem_map]
  exact in1d_two_candidates a hs h2 b[i] rtol atol

theorem in1d_all_iff (a b : List ℚ) (rtol atol : ℚ) (hs : a.Sorted (· ≤ ·))
    (h2 : 2 ≤ a.length) :
    ((in1d a b rtol atol).all id = true ↔
      ∀ y ∈ b, ∃ x ∈ a, isClose x y rtol atol = true) := by
  rw [in1d_eq_map a b rtol atol (by omega), List.all_eq_true]
  constructor
  · intro h y hy
    have := h _ (List.mem_map_of_mem _ hy)
    exact (in1d_two_candidates a hs h2 y rtol atol).mp this
  · intro h z hz
    obtain ⟨y, hy, rfl⟩ := List.mem_map.mp hz
    exact (in1d_two_candidates a hs h2 y rtol atol).mpr (h y hy)

theorem sorted_npUnique (l : List ℚ) : (npUnique l).Sorted (· ≤ ·) := by
  unfold npUnique
  exact List.Pairwise.sublist (List.dedup_sublist _) (List.sorted_insertionSort _ l)

theorem mem_npUnique (x : ℚ) (l : List ℚ) : x ∈ npUnique l ↔ x ∈ l := by
  unfold npUnique
  rw [List.mem_dedup]
  exact (List.perm_insertionSort _ l).mem_iff

/-! Claim C10 -/

/-- C10: for every sorted list `a` with at least two elements, the general
branch of `in1d` is total: for every element `v` of `b`, the binary-search
index `ss` into `a[1:-1]` satisfies `ss <= len(a) - 2`, so both accesses
`a[ss]` and `a[ss+1]` are in bounds, whatever the values of `b`. -/
theorem in1d_search_index_in_bounds (a b : List ℚ) (_hs : a.Sorted (· ≤ ·))
    (h2 : 2 ≤ a.length) :
    ∀ v ∈ b, searchsortedLeft (pySlice1m1 a) v ≤ a.length - 2
      ∧ searchsortedLeft (pySlice1m1 a) v < a.length
      ∧ searchsortedLeft (pySlice1m1 a) v + 1 < a.length := by
  intro v hv
  have h := searchsortedLeft_le a v
  exact ⟨h, by omega, by omega⟩

theorem in1d_search_index_in_bounds_witness :
    searchsortedLeft (pySlice1m1 [1, 2, 3]) 5 ≤ ([1, 2, 3] : List ℚ).length - 2
      ∧ searchsortedLeft (pySlice1m1 [1, 2, 3]) 5 < ([1, 2, 3] : List ℚ).length
      ∧ searchsortedLeft (pySlice1m1 [1, 2, 3]) 5 + 1 < ([1, 2, 3] : List ℚ).length :=
  in1d_search_index_in_bounds [1, 2, 3] [5]
    (by norm_num [List.sorted_cons]) (by norm_num) 5 (by norm_num)

/-! Claim C2 -/

/-- C2 (amended): for every sorted list `a` with at least two elements and
every list `b`, `in1d(a, b)` returns a boolean sequence of length `len(b)`
whose entry `i` is true iff some element `x` of `a` satisfies
`|x - b[i]| <= atol + rtol*|b[i]|`, and the result is empty when `b` is;
when `a` has exactly one element, the function instead returns the
one-element sequence whose sole entry is true iff some element `be` of `b`
satisfies `|be - a[0]| <= atol + rtol*|a[0]|`. -/
theorem in1d_spec_amended (a b : List ℚ) (rtol atol : ℚ) :
    (a.Sorted (· ≤ ·) → 2 ≤ a.length →
      (in1d a b rtol atol).length = b.length ∧
      ∀ i, i < b.length →
        ((in1d a b rtol atol).getD i false = true ↔
          ∃ x ∈ a, isClose x (b.getD i 0) rtol atol = true))
    ∧ (a.length = 1 →
        in1d a b rtol atol = [b.any (fun be => isClose be (a.getD 0 0) rtol atol)])
    ∧ (2 ≤ a.length → b = [] → in1d a b rtol atol = []) := by
  refine ⟨fun hs h2 => ⟨in1d_length_general a b rtol atol (by omega), ?_⟩, ?_, ?_⟩
  · intro i hi
    exact in1d_getD_iff a b rtol atol hs h2 i hi
  · intro hlen
    unfold in1d
    rw [if_pos hlen]
    cases hany : b.any (fun be => isClose be (a.getD 0 0) rtol atol) <;> simp [hany]
  · intro h2 hb
    subst hb
    rw [in1d_eq_map a [] rtol atol (by omega)]
    rfl

theorem in1d_spec_amended_witness :
    (in1d [1, 2] [2] defaultRtol defaultAtol).getD 0 false = true ↔
      ∃ x ∈ ([1, 2] : List ℚ), isClose x (([2] : List ℚ).getD 0 0) defaultRtol defaultAtol = true :=
  ((in1d_spec_amended [1, 2] [2] defaultRtol defaultAtol).1
    (by norm_num [List.sorted_cons]) (by norm_num)).2 0 (by norm_num)

/-- C2 counterexample: on the sorted non-empty needle `a = [1]` and haystack
`b = [2, 1]`, the source returns the single-element list `[True]` (`2` does
not match `1` but the scan stops at the matching `1`), not a boolean
sequence of length `len(b) = 2` as the claim asserts. -/
theorem in1d_single_element_counterexample :
    in1d [1] [2, 1] defaultRtol defaultAtol = [true]
      ∧ (in1d [1] [2, 1] defaultRtol defaultAtol).length ≠ 2 := by
  have h : in1d [1] [2, 1] defaultRtol defaultAtol = [true] := by
    norm_num [in1d, isClose, ratAbs, defaultRtol, defaultAtol]
  exact ⟨h, by rw [h]; decide⟩

/-! Claim C1 -/

/-- C1 (amended): for every coefficient grid, every evolution operator whose
scale grid and target momentum-fraction grid each hold at least two distinct
values, and every factor `xif`, the compatibility checker succeeds iff
(1) every element of `xif^2` times the coefficient grid's
factorization-scale values tolerantly matches some distinct value of the
operator's scale grid, and (2) every coefficient-grid x-value tolerantly
matches some distinct value of the operator's target grid (the direction is
required-grid-contained-in-operator-grid); otherwise it raises the
`ValueError` naming the first failing grid, the Q2 grid being checked
first. -/
theorem check_grid_and_eko_compatible_iff (opMu2grid opTargetgrid x_grid muf2_grid : List ℚ)
    (xif : ℚ) (hq : 2 ≤ (npUnique opMu2grid).length)
    (hx : 2 ≤ (npUnique opTargetgrid).length) :
    (check_grid_and_eko_compatible opMu2grid opTargetgrid x_grid muf2_grid xif = .ok () ↔
      (q2_required_in_operator opMu2grid muf2_grid xif
        ∧ x_required_in_operator opTargetgrid x_grid))
    ∧ (¬ q2_required_in_operator opMu2grid muf2_grid xif →
        check_grid_and_eko_compatible opMu2grid opTargetgrid x_grid muf2_grid xif =
          .error "Q2 grid in pineappl grid and eko operator are NOT compatible!")
    ∧ (q2_required_in_operator opMu2grid muf2_grid xif →
        ¬ x_required_in_operator opTargetgrid x_grid →
        check_grid_and_eko_compatible opMu2grid opTargetgrid x_grid muf2_grid xif =
          .error "x grid in pineappl grid and eko operator are NOT compatible!") := by
  have hQ : ((in1d (npUnique opMu2grid) (muf2_grid.map (fun q => xif * xif * q))
        defaultRtol defaultAtol).all id = true)
      ↔ q2_required_in_operator opMu2grid muf2_grid xif := by
    unfold q2_required_in_operator
    exact in1d_all_iff _ _ _ _ (sorted_npUnique _) hq
  have hX : ((in1d (npUnique opTargetgrid) x_grid defaultRtol defaultAtol).all id = true)
      ↔ x_required_in_operator opTargetgrid x_grid := by
    unfold x_required_in_operator
    exact in1d_all_iff _ _ _ _ (sorted_npUnique _) hx
  unfold check_grid_and_eko_compatible
  cases hbq : (in1d (npUnique opMu2grid) (muf2_grid.map (fun q => xif * xif * q))
      defaultRtol defaultAtol).all id with
  | false =>
    have hnq : ¬ q2_required_in_operator opMu2grid muf2_grid xif := by
      rw [← hQ, hbq]
      simp
    rw [if_pos (show (!false) = true from rfl)]
    refine ⟨⟨fun h => absurd h (by simp), fun h => absurd h.1 hnq⟩,
      fun _ => rfl, fun hq2 _ => absurd hq2 hnq⟩
  | true =>
    have hyq : q2_required_in_operator opMu2grid muf2_grid xif := hQ.mp hbq
    rw [if_neg (show ¬ (!true) = true by simp)]
    cases hbx : (in1d (npUnique opTargetgrid) x_grid defaultRtol defaultAtol).all id with
    | false =>
      have hnx : ¬ x_required_in_operator opTargetgrid x_grid := by
        rw [← hX, hbx]
        simp
      rw [if_pos (show (!false) = true from rfl)]
      refine ⟨⟨fun h => absurd h (by simp), fun h => absurd h.2 hnx⟩,
        fun hq3 => absurd hyq hq3, fun _ _ => rfl⟩
    | true =>
      have hyx : x_required_in_operator opTargetgrid x_grid := hX.mp hbx
      rw [if_neg (show ¬ (!true) = true by simp)]
      exact ⟨⟨fun _ => ⟨hyq, hyx⟩, fun _ => rfl⟩,
        fun hq3 => absurd hyq hq3, fun _ hx3 => absurd hyx hx3⟩

theorem check_grid_and_eko_compatible_iff_witness :
    check_grid_and_eko_compatible [10, 20] [1/3, 1/2] [1/3, 1/2] [10, 20] 1 = .ok () ↔
      (q2_required_in_operator [10, 20] [10, 20] 1
        ∧ x_required_in_operator [1/3, 1/2] [1/3, 1/2]) :=
  (check_grid_and_eko_compatible_iff [10, 20] [1/3, 1/2] [1/3, 1/2] [10, 20] 1
    (by norm_num [npUnique, List.insertionSort, List.orderedInsert, List.dedup, List.pwFilter])
    (by norm_num [npUnique, List.insertionSort, List.orderedInsert, List.dedup, List.pwFilter])).1

/-- C1 counterexample: for the operator scale grid `{10, 20}` with `xif = 1`
against coefficient factorization-scale values `{10.00000001, 20, 30}` (and
trivially matching x grids), both membership conditions of the claim hold —
every distinct operator value tolerantly matches a required value — yet the
checker raises the Q2 `ValueError`, because the source checks the reverse
containment and `30` matches no operator scale. -/
theorem check_grid_example_counterexample :
    q2_compatible_claimed [10, 20] [1000000001/100000000, 20, 30] 1
      ∧ x_compatible_claimed [1/2] [1/2]
      ∧ check_grid_and_eko_compatible [10, 20] [1/2] [1/2] [1000000001/100000000, 20, 30] 1
        = .error "Q2 grid in pineappl grid and eko operator are NOT compatible!" := by
  refine ⟨?_, ?_, ?_⟩
  · unfold q2_compatible_claimed
    norm_num [npUnique, List.insertionSort, List.orderedInsert, List.dedup, List.pwFilter,
      isClose, ratAbs, defaultRtol, defaultAtol]
  · unfold x_compatible_claimed
    norm_num [npUnique, List.insertionSort, List.orderedInsert, List.dedup, List.pwFilter,
      isClose, ratAbs, defaultRtol, defaultAtol]
  · norm_num [check_grid_and_eko_compatible, in1d, isClose, ratAbs, defaultRtol, defaultAtol,
      searchsortedLeft, pySlice1m1, npUnique, List.insertionSort, List.orderedInsert,
      List.dedup, List.pwFilter]

/-! Helper lemmas on the availability checker -/

theorem pure_qcd_orders_eq (order_list : List GridOrder) (h : order_list ≠ []) :
    pure_qcd_orders order_list = .ok (pureQcdFiltered order_list) := by
  unfold pure_qcd_orders pureQcdFiltered
  cases hmin : (order_list.map (fun o => o.tupleGet 1)).min? with
  | none =>
    exfalso
    cases order_list with
    | nil => exact h rfl
    | cons o os => simp [List.min?] at hmin
  | some m =>
    simp only [hmin]
    congr 1
    apply List.filter_congr
    intro o ho
    simp

theorem pureQcdFiltered_ne_nil_of_max (order_list : List GridOrder) (mx : ℕ)
    (hmx : svMaxAsAll order_list = some mx) : pureQcdFiltered order_list ≠ [] := by
  intro hnil
  unfold svMaxAsAll at hmx
  rw [hnil] at hmx
  simp [List.max?] at hmx

theorem orderList_ne_nil_of_max (order_list : List GridOrder) (mx : ℕ)
    (hmx : svMaxAsAll order_list = some mx) : order_list ≠ [] := by
  intro hnil
  exact pureQcdFiltered_ne_nil_of_max order_list mx hmx (by rw [hnil]; rfl)

/-- One-step characterization of `contains_sv` by the four statistics of the
pure-QCD tower. -/
theorem contains_sv_char (order_list : List GridOrder) (sv_type : Scale) (mx mn c : ℕ)
    (hmx : svMaxAsAll order_list = some mx) (hmn : svMinAs order_list = some mn)
    (hc : svMaxAsCen order_list sv_type = some c) :
    contains_sv order_list sv_type = .ok
      ((if c = mx then
          if svMaxAsSv order_list sv_type = mx then AvailableAtMax.BOTH
          else if mx = mn then AvailableAtMax.BOTH
          else if mx = 1 ∧ sv_type = Scale.REN ∧ mn = 0 then AvailableAtMax.BOTH
          else AvailableAtMax.CENTRAL
        else AvailableAtMax.SCVAR), mx - mn + 1) := by
  have hne := orderList_ne_nil_of_max order_list mx hmx
  unfold svMaxAsAll at hmx
  unfold svMinAs at hmn
  unfold svMaxAsCen at hc
  unfold contains_sv
  split
  next e heq =>
    rw [pure_qcd_orders_eq order_list hne] at heq
    exact absurd heq (by simp)
  next as_orders heq =>
    rw [pure_qcd_orders_eq order_list hne] at heq
    have has : as_orders = pureQcdFiltered order_list := (Except.ok.inj heq).symm
    subst has
    split
    next heq2 => rw [hmx] at heq2; exact absurd heq2 (by simp)
    next mx2 heq2 =>
      rw [hmx] at heq2
      have hmx2 : mx2 = mx := (Option.some.inj heq2).symm
      subst hmx2
      split
      next heq3 => rw [hmn] at heq3; exact absurd heq3 (by simp)
      next mn2 heq3 =>
        rw [hmn] at heq3
        have hmn2 : mn2 = mn := (Option.some.inj heq3).symm
        subst hmn2
        split
        next heq4 => rw [hc] at heq4; exact absurd heq4 (by simp)
        next c2 heq4 =>
          rw [hc] at heq4
          have hc2 : c2 = c := (Option.some.inj heq4).symm
          subst hc2
          unfold svMaxAsSv
          rfl

/-- Whenever `contains_sv` returns, its effective order is
`max_as_all - min_as + 1` over the pure-QCD tower. -/
theorem contains_sv_ok_shape (order_list : List GridOrder) (sv_type : Scale)
    (r : AvailableAtMax) (eff : ℕ)
    (h : contains_sv order_list sv_type = .ok (r, eff)) :
    ∃ mx mn, svMaxAsAll order_list = some mx ∧ svMinAs order_list = some mn
      ∧ eff = mx - mn + 1 := by
  unfold contains_sv at h
  split at h
  next e heq => exact absurd h (by simp)
  next as_orders heq =>
    have hne : order_list ≠ [] := by
      intro hnil
      rw [hnil] at heq
      simp [pure_qcd_orders, List.min?] at heq
    rw [pure_qcd_orders_eq order_list hne] at heq
    have has : as_orders = pureQcdFiltered order_list := (Except.ok.inj heq).symm
    subst has
    split at h
    next heq2 => exact absurd h (by simp)
    next mx heq2 =>
      split at h
      next heq3 => exact absurd h (by simp)
      next mn heq3 =>
        split at h
        next heq4 => exact absurd h (by simp)
        next c heq4 =>
          refine ⟨mx, mn, ?_, ?_, ?_⟩
          · unfold svMaxAsAll
            exact heq2
          · unfold svMinAs
            exact heq3
          · have h2 := Except.ok.inj h
            have := congrArg Prod.snd h2
            simpa using this.symm

/-! Claim C6 -/

/-- C6: for every scale kind and every `(max_as, max_al)` whose filtered
order list is empty, `contains_sv` raises (Python's `min` on the empty
generator); it never returns a result on an empty order set. -/
theorem contains_sv_empty_order_list_raises (grid : List GridOrder) (max_as max_al : ℕ)
    (sv_type : Scale) (h : get_order_list grid max_as max_al = []) :
    contains_sv (get_order_list grid max_as max_al) sv_type
      = .error "ValueError: min() arg is an empty sequence" := by
  rw [h]
  rfl

theorem contains_sv_empty_order_list_raises_witness :
    contains_sv (get_order_list [⟨5, 0, 0, 0⟩] 1 0) Scale.REN
      = .error "ValueError: min() arg is an empty sequence" :=
  contains_sv_empty_order_list_raises [⟨5, 0, 0, 0⟩] 1 0 Scale.REN (by decide)

/-! Claim C5 -/

/-- C5: whenever the availability checker returns, its effective order is
`max_as_all - min_as + 1` computed over the filtered pure-QCD orders; in
particular on a grid whose only order is `(0,0,0,0)` it returns BOTH with
effective order 1 for both scale kinds, for any `(max_as, max_al)`. -/
theorem contains_sv_effective_max_as :
    (∀ (grid : List GridOrder) (max_as max_al : ℕ) (sv_type : Scale)
        (r : AvailableAtMax) (eff : ℕ),
      contains_sv (get_order_list grid max_as max_al) sv_type = .ok (r, eff) →
      ∃ mx mn, svMaxAsAll (get_order_list grid max_as max_al) = some mx
        ∧ svMinAs (get_order_list grid max_as max_al) = some mn
        ∧ eff = mx - mn + 1)
    ∧ (∀ max_as max_al : ℕ,
        contains_sv (get_order_list [⟨0, 0, 0, 0⟩] max_as max_al) Scale.REN
          = .ok (AvailableAtMax.BOTH, 1)
        ∧ contains_sv (get_order_list [⟨0, 0, 0, 0⟩] max_as max_al) Scale.FACT
          = .ok (AvailableAtMax.BOTH, 1)) := by
  constructor
  · intro grid max_as max_al sv_type r eff h
    exact contains_sv_ok_shape _ sv_type r eff h
  · intro max_as max_al
    have hg : get_order_list [⟨0, 0, 0, 0⟩] max_as max_al = [⟨0, 0, 0, 0⟩] := by
      simp [get_order_list]
    rw [hg]
    exact ⟨by decide, by decide⟩

theorem contains_sv_effective_max_as_witness :
    ∃ mx mn, svMaxAsAll (get_order_list [⟨1, 0, 0, 0⟩] 1 0) = some mx
      ∧ svMinAs (get_order_list [⟨1, 0, 0, 0⟩] 1 0) = some mn
      ∧ 1 = mx - mn + 1 :=
  contains_sv_effective_max_as.1 [⟨1, 0, 0, 0⟩] 1 0 Scale.REN AvailableAtMax.BOTH 1 (by decide)

/-! Claim C4 -/

/-- C4: on a filtered pure-QCD tower with `max_as_central = max_as_all`,
`max_as_varied ≠ max_as_all`, `max_as_all ≠ min_as`, `max_as_all = 1` and
`min_as = 0` (for both kinds' markers), the checker returns BOTH for the
RENORMALIZATION kind but CENTRAL for the FACTORIZATION kind: the two kinds
are asymmetric at exactly this branch. -/
theorem contains_sv_ren_fact_asymmetry (grid : List GridOrder) (max_as max_al : ℕ)
    (mx mn : ℕ)
    (hmx : svMaxAsAll (get_order_list grid max_as max_al) = some mx)
    (hmn : svMinAs (get_order_list grid max_as max_al) = some mn)
    (hcR : svMaxAsCen (get_order_list grid max_as max_al) Scale.REN = some mx)
    (hsvR : svMaxAsSv (get_order_list grid max_as max_al) Scale.REN ≠ mx)
    (hcF : svMaxAsCen (get_order_list grid max_as max_al) Scale.FACT = some mx)
    (hsvF : svMaxAsSv (get_order_list grid max_as max_al) Scale.FACT ≠ mx)
    (hnemn : mx ≠ mn) (h1 : mx = 1) (h0 : mn = 0) :
    contains_sv (get_order_list grid max_as max_al) Scale.REN
        = .ok (AvailableAtMax.BOTH, mx - mn + 1)
      ∧ contains_sv (get_order_list grid max_as max_al) Scale.FACT
        = .ok (AvailableAtMax.CENTRAL, mx - mn + 1) := by
  constructor
  · rw [contains_sv_char _ Scale.REN mx mn mx hmx hmn hcR]
    rw [if_pos rfl, if_neg hsvR, if_neg hnemn, if_pos ⟨h1, rfl, h0⟩]
  · rw [contains_sv_char _ Scale.FACT mx mn mx hmx hmn hcF]
    rw [if_pos rfl, if_neg hsvF, if_neg hnemn,
      if_neg (fun hco => Scale.noConfusion hco.2.1)]

theorem contains_sv_ren_fact_asymmetry_witness :
    contains_sv (get_order_list [⟨0, 0, 0, 0⟩, ⟨1, 0, 0, 0⟩] 2 0) Scale.REN
        = .ok (AvailableAtMax.BOTH, 1 - 0 + 1)
      ∧ contains_sv (get_order_list [⟨0, 0, 0, 0⟩, ⟨1, 0, 0, 0⟩] 2 0) Scale.FACT
        = .ok (AvailableAtMax.CENTRAL, 1 - 0 + 1) :=
  contains_sv_ren_fact_asymmetry [⟨0, 0, 0, 0⟩, ⟨1, 0, 0, 0⟩] 2 0 1 0
    (by decide) (by decide) (by decide) (by decide) (by decide) (by decide)
    (by decide) (by decide) (by decide)

/-! Claim C3 -/

/-- C3: `evolve_grid` invokes the compatibility checker with only three
positional arguments (`grid`, `operators`, `xif`) while the checker's
signature requires five parameters without defaults, so the call raises a
`TypeError` on every invocation instead of completing on compatible
inputs. -/
theorem evolve_grid_checker_call_raises_type_error :
    python_bind_positional check_grid_and_eko_compatible_params
      evolve_grid_compat_call_args = .error "TypeError" := by
  rfl

/-! Claim C7 -/

/-- C7: `sv_scheme` raises iff the factorization-variation factor `XIF` is
approximately 1.0 and `ModSV` is a recognized scheme value; with `XIF`
approximately 1.0 and an unrecognized `ModSV` it returns None; with `XIF`
away from 1.0 it returns `ModSV` when recognized and None otherwise. -/
theorem sv_scheme_spec (modsv_list : List String) (xif : ℚ) (modsv : String) :
    ((∃ e, sv_scheme modsv_list xif modsv = .error e) ↔
      (isClose xif 1 defaultRtol defaultAtol = true ∧ modsv ∈ modsv_list))
    ∧ (isClose xif 1 defaultRtol defaultAtol = true → modsv ∉ modsv_list →
        sv_scheme modsv_list xif modsv = .ok none)
    ∧ (isClose xif 1 defaultRtol defaultAtol = false →
        sv_scheme modsv_list xif modsv =
          .ok (if modsv ∈ modsv_list then some modsv else none)) := by
  unfold sv_scheme
  cases hb : isClose xif 1 defaultRtol defaultAtol with
  | true =>
    rw [if_pos rfl]
    by_cases hm : modsv ∈ modsv_list
    · rw [if_pos hm]
      exact ⟨⟨fun _ => ⟨rfl, hm⟩, fun _ => ⟨_, rfl⟩⟩,
        fun _ hm2 => absurd hm hm2, fun hfalse => absurd hfalse (by simp)⟩
    · rw [if_neg hm]
      exact ⟨⟨fun ⟨e, he⟩ => absurd he (by simp), fun ⟨_, hm2⟩ => absurd hm2 hm⟩,
        fun _ _ => rfl, fun hfalse => absurd hfalse (by simp)⟩
  | false =>
    rw [if_neg (by simp)]
    by_cases hm : modsv ∈ modsv_list
    · rw [if_neg (fun hn => hn hm)]
      refine ⟨⟨fun ⟨e, he⟩ => absurd he (by simp), fun ⟨hb2, _⟩ => absurd hb2 (by simp)⟩,
        fun hb2 _ => absurd hb2 (by simp), fun _ => ?_⟩
      rw [if_pos hm]
    · rw [if_pos hm]
      refine ⟨⟨fun ⟨e, he⟩ => absurd he (by simp), fun ⟨hb2, _⟩ => absurd hb2 (by simp)⟩,
        fun hb2 _ => absurd hb2 (by simp), fun _ => ?_⟩
      rw [if_neg hm]

theorem sv_scheme_spec_witness :
    sv_scheme ["expanded"] 2 "expanded" =
      .ok (if "expanded" ∈ ["expanded"] then some "expanded" else none) :=
  (sv_scheme_spec ["expanded"] 2 "expanded").2.2
    (by norm_num [isClose, ratAbs, defaultRtol, defaultAtol])

/-! Claim C8 -/

/-- C8: in `evolve_grid`, the running-coupling list passed to the fold has
one value per operator scale point, in order, and the value at scale point
`muf2` is `4*pi` times the external coupling evaluator applied at
`xir^2 * muf2 / xif^2` (with `xir`, `xif` as bound at that point of the
function). -/
theorem alphas_values_spec (pi : ℚ) (a_s : ℚ → ℚ) (xir xif : ℚ) (muf2_grid : List ℚ) :
    (alphas_values pi a_s xir xif muf2_grid).length = muf2_grid.length
    ∧ ∀ i, i < muf2_grid.length →
      (alphas_values pi a_s xir xif muf2_grid).getD i 0
        = 4 * pi * a_s (xir ^ 2 * muf2_grid.getD i 0 / xif ^ 2) := by
  constructor
  · unfold alphas_values
    rw [List.length_map]
  · intro i hi
    unfold alphas_values
    rw [List.getD_eq_getElem _ 0 (by rw [List.length_map]; exact hi),
      List.getD_eq_getElem _ 0 hi, List.getElem_map]
    have harg : xir * xir * muf2_grid[i] / xif / xif
        = xir ^ 2 * muf2_grid[i] / xif ^ 2 := by
      ring
    rw [harg]

theorem alphas_values_spec_witness :
    (alphas_values 3 id 1 2 [4]).getD 0 0
      = 4 * 3 * id ((1 : ℚ) ^ 2 * ([4] : List ℚ).getD 0 0 / 2 ^ 2) :=
  (alphas_values_spec 3 id 1 2 [4]).2 0 (by norm_num)

/-! Claim C9 -/

/-- C9: the compatibility checker is deterministic and does not mutate its
inputs: a run returns the inputs unchanged, and a second run on the state
left by the first yields the same verdict. -/
theorem check_grid_run_idempotent (s : CheckInputs) :
    (check_grid_run s).2 = s
    ∧ (check_grid_run ((check_grid_run s).2)).1 = (check_grid_run s).1 :=
  ⟨rfl, rfl⟩
